import Mathlib

/-!
Verification of the synthetic Asana-workspace dataset generator.

Shallow embedding conventions, used throughout:

* Naive `datetime` values are modelled as integer epoch seconds (`Int`);
  `date` values as integer day numbers.  `format_timestamp` / `strptime`
  round-trip a datetime through a whole-second string, so at this
  granularity they are the identity and are not modelled separately.
  `timedelta(days = d)` is `d * secsPerDay`, `timedelta(hours = h)` is
  `h * 3600`.
* Calls into the seeded `random` module are modelled by explicit input
  streams: each `randint(a, b)` or `uniform(a, b)` draw becomes an `Int`
  parameter (theorems hypothesise its range), each probability test
  (`random.random() < p`, `biased_boolean(p)`) becomes a `Bool`
  parameter, and each `random.choices(range(n), weights)` pick becomes a
  `Nat` index (theorems hypothesise it is `< n`; with the positive
  weights arising in the code every index is reachable).
* `uuid.uuid4()` reads operating-system entropy, not the seeded stream;
  it is modelled as an explicit `String` input independent of the other
  streams.
* A raised Python exception is modelled as `none` in an `Option` result.
-/

namespace AsanaSim

/-! ## Temporal model -/

/-- Seconds per day; `timedelta(days=1).total_seconds()`. -/
def secsPerDay : Int := 86400

/-- Model of `dt.date()` for an epoch-seconds datetime: the day number (floor
division; Lean's `Int` `/` is Euclidean division, which agrees with
Python's floor division for the positive divisor 86400). -/
def dateOf (t : Int) : Int := t / secsPerDay

/-- Model of `dt.weekday()`: Monday = 0 … Sunday = 6.  Day 0 (1970-01-01) was a
Thursday (= 3). -/
def weekday (t : Int) : Int := (dateOf t + 3) % 7

/-- Model of `dt.replace(hour=h, minute=m)`: keeps the calendar day and the
seconds component, replaces hour and minute. -/
def replaceHourMinute (t h m : Int) : Int :=
  dateOf t * secsPerDay + h * 3600 + m * 60 + t % 60

/-- Model of `random_date_between(start, end)` (src/utils/dates.py): returns
`start` when `start >= end`, otherwise `start + random_seconds` where
`random_seconds = randint(0, int((end-start).total_seconds()))` is the
draw `r` (so `0 ≤ r ≤ end - start`). -/
def random_date_between (start «end» r : Int) : Int :=
  if start ≥ «end» then start else start + r

/-- The draw outcomes consumed by one call of `random_business_date`:
the initial `random_date_between` draw, the `random.random() < 0.85`
outcomes and resample draws of the weekday-retry loop, the
`random.random() < 0.80` outcome, and the `randint(9, 17)` /
`randint(0, 59)` hour/minute draws. -/
structure BizDraws where
  rInit : Int
  cont : Nat → Bool
  rRetry : Nat → Int
  adjust : Bool
  hour : Int
  minute : Int

/-- The weekday-retry loop of `random_business_date`
(src/utils/dates.py): `while attempts < 10 and random.random() < 0.85:`
breaks as soon as the current result is a weekday, otherwise redraws
and increments `attempts`.  `fuel` is `10 - attempts`, `i` counts the
condition evaluations. -/
def bizRetry (start «end» : Int) (cont : Nat → Bool) (rRetry : Nat → Int) :
    Nat → Nat → Int → Int
  | 0, _, result => result
  | fuel + 1, i, result =>
    if cont i then
      if weekday result < 5 then result
      else bizRetry start «end» cont rRetry fuel (i + 1)
        (random_date_between start «end» (rRetry i))
    else result

/-- Model of `random_business_date(start, end)` (src/utils/dates.py): draw
uniformly, retry toward a weekday a bounded number of times, then with
probability 0.80 replace the hour with `randint(9, 17)` and the minute
with `randint(0, 59)`. -/
def random_business_date (start «end» : Int) (d : BizDraws) : Int :=
  let result := random_date_between start «end» d.rInit
  let result := bizRetry start «end» d.cont d.rRetry 10 0 result
  if d.adjust then replaceHourMinute result d.hour d.minute else result

/-- Model of `generate_due_date(created_at, distribution, now)`
(src/utils/dates.py).  `roll = random.random()` selects the branch;
`days_overdue`, `days_week`, `days_month`, `days_quarter` are the
`randint(1,14)`, `randint(1,7)`, `randint(8,30)`, `randint(31,90)`
draws of the respective branches.  Returns a day number or `none`. -/
def generate_due_date (created_at now : Int) (roll : Rat)
    (days_overdue days_week days_month days_quarter : Int) : Option Int :=
  if roll < 10 / 100 then none
  else if roll < 15 / 100 then
    let due := now - days_overdue * secsPerDay
    let due :=
      if dateOf due ≤ dateOf created_at then created_at + secsPerDay else due
    some (dateOf due)
  else if roll < 40 / 100 then
    some (dateOf (created_at + days_week * secsPerDay))
  else if roll < 80 / 100 then
    some (dateOf (created_at + days_month * secsPerDay))
  else some (dateOf (created_at + days_quarter * secsPerDay))

/-- Model of `generate_completion_time(created_at, now)` (src/utils/dates.py).
`days_secs` is the cycle-time draw `uniform(lo, hi)` (in `[1, 30]`
days) scaled to seconds; `h1` is the `randint(1, 24)` clamp draw and
`h2` the `randint(1, 48)` push draw. -/
def generate_completion_time (created_at now days_secs h1 h2 : Int) : Int :=
  let completed_at := created_at + days_secs
  let completed_at :=
    if completed_at > now then now - h1 * 3600 else completed_at
  if completed_at ≤ created_at then created_at + h2 * 3600 else completed_at

/-! ## Sampling primitives (src/utils/distributions.py) -/

/-- Model of `weighted_choice(options)` (src/utils/distributions.py).

The Python body unpacks `choices, weights = zip(*items)` — a
`ValueError` when the dict is empty — then normalises each weight by
`total = sum(weights)` — a `ZeroDivisionError` when the weights sum to
zero — and finally draws one of the keys via `random.choices`.  The
drawn index is the input `pick`; `random.choices` always yields an
index `< len(items)`, modelled here by reducing `pick` modulo the
length.  A raised exception is `none`. -/
def weighted_choice {α : Type} (options : List (α × Rat)) (pick : Nat) :
    Option α :=
  if options.isEmpty then none
  else
    let total := (options.map Prod.snd).sum
    if total = 0 then none
    else (options.get? (pick % options.length)).map Prod.fst

/-- One unit handed to bucket `i` by `distribute_among`'s main loop
(`result[idx] += 1`); out-of-range indices leave the list unchanged
(the code only draws in-range indices). -/
def bump (l : List Int) (i : Nat) : List Int := l.set i (l.getD i 0 + 1)

/-- Model of `distribute_among(total, buckets, min_per_bucket)`
(src/utils/distributions.py).

`buckets <= 0` returns `[]`.  If `remaining = total - min_per_bucket *
buckets` is negative the code degrades to the deterministic even split
`[base]*buckets` with the first `total % buckets` entries incremented
(no randomness).  Otherwise it starts every bucket at `min_per_bucket`
and hands out `remaining` single units; each round first computes
`weights = [1.0 / (count + 1) for count in result]` — a
`ZeroDivisionError` (`none`) when some count equals `-1` — and then
increments the bucket drawn by `random.choices`, modelled by the index
stream `c`. -/
def distribute_among (total buckets min_per_bucket : Int)
    (c : Nat → Nat) : Option (List Int) :=
  if buckets ≤ 0 then some []
  else
    let remaining := total - min_per_bucket * buckets
    if remaining < 0 then
      let base := total / buckets
      let rem := total % buckets
      some ((List.range buckets.toNat).map
        (fun (i : Nat) => if (i : Int) < rem then base + 1 else base))
    else
      (List.range remaining.toNat).foldlM
        (fun acc i =>
          if (-1 : Int) ∈ acc then none else some (bump acc (c i)))
        (List.replicate buckets.toNat min_per_bucket)

/-! ## Task records (src/src/generators/tasks.py, subtasks.py)

Only the fields the generators read or write are modelled; `completed`
is stored as `1` / `0` exactly as in the Python records. -/

structure Task where
  id : String
  name : String
  description : Option String
  project_id : String
  section_id : String
  assignee_id : Option String
  created_by_id : String
  parent_task_id : Option String
  due_date : Option Int
  created_at : Int
  completed : Nat
  completed_at : Option Int
  position : Nat
  deriving DecidableEq, Repr

/-- Model of `generate_task(...)` (src/src/generators/tasks.py): builds a task
record.  `uuid` is the `str(uuid.uuid4())` value — operating-system
entropy, independent of the seeded random stream. -/
def generate_task (uuid : String) (name : String)
    (description : Option String) (project_id section_id : String)
    (assignee_id : Option String) (created_by_id : String)
    (created_at : Int) (due_date : Option Int) (completed : Bool)
    (completed_at : Option Int) (position : Nat)
    (parent_task_id : Option String) : Task :=
  { id := uuid
    name := name
    description := description
    project_id := project_id
    section_id := section_id
    assignee_id := assignee_id
    created_by_id := created_by_id
    parent_task_id := parent_task_id
    due_date := due_date
    created_at := created_at
    completed := if completed then 1 else 0
    completed_at := completed_at
    position := position }

/-- A task record with its `id` field erased: the projection of a
record onto everything that does not come from `uuid.uuid4()`. -/
def sansId (t : Task) : Task := { t with id := "" }

/-- Model of `generate_subtask(parent_task, name, position, created_at,
completed, completed_at)` (src/src/generators/subtasks.py): subtasks
inherit `project_id`, `section_id`, `assignee_id`, `created_by_id` and
`due_date` from the parent, point `parent_task_id` at the parent and
carry no description. -/
def generate_subtask (parent : Task) (name : String) (position : Nat)
    (created_at : Int) (completed : Bool) (completed_at : Option Int)
    (uuid : String) : Task :=
  { id := uuid
    name := name
    description := none
    project_id := parent.project_id
    section_id := parent.section_id
    assignee_id := parent.assignee_id
    created_by_id := parent.created_by_id
    parent_task_id := some parent.id
    due_date := parent.due_date
    created_at := created_at
    completed := if completed then 1 else 0
    completed_at := completed_at
    position := position }

/-- The draw outcomes used for one parent task inside
`generate_subtasks`: the `subtask_count_for_task()` outcome (2–10), the
name chosen by the name-pattern retry loop (a pure string computation
that no claim concerns), the `randint` draw of the creation stagger,
the `biased_boolean` completion outcome, and the `randint` draw of the
completion time — each indexed by subtask position. -/
structure SubStream where
  count : Nat
  name : Nat → String
  rCreated : Nat → Int
  done : Nat → Bool
  rCompleted : Nat → Int

/-- The body of the `for i in range(num_subtasks)` loop of
`generate_subtasks` (src/src/generators/subtasks.py): staggers the
`i`-th subtask's creation into `[parent.created_at, parent.created_at +
2 days]`, then ties its completion to the parent's completion status
(`if subtask_completed and parent_completed_at:` — otherwise both the
flag and the timestamp are cleared). -/
def subtask_body (parent : Task) (simulation_end : Int) (s : SubStream)
    (uuid : Nat → String) (i : Nat) : Task :=
  let subtask_created := random_date_between parent.created_at
    (parent.created_at + 2 * secsPerDay) (s.rCreated i)
  if parent.completed ≠ 0 then
    match parent.completed_at with
    | some pca =>
      if s.done i then
        generate_subtask parent (s.name i) i subtask_created true
          (some (random_date_between subtask_created pca
            (s.rCompleted i))) (uuid i)
      else
        generate_subtask parent (s.name i) i subtask_created false none
          (uuid i)
    | none =>
      generate_subtask parent (s.name i) i subtask_created false none
        (uuid i)
  else
    if s.done i then
      generate_subtask parent (s.name i) i subtask_created true
        (some (random_date_between subtask_created simulation_end
          (s.rCompleted i))) (uuid i)
    else
      generate_subtask parent (s.name i) i subtask_created false none
        (uuid i)

/-- The per-parent body of the `for parent in tasks_with_subtasks` loop
of `generate_subtasks`: one subtask per position `0 ≤ i <
num_subtasks`. -/
def gen_subtasks_for (parent : Task) (simulation_end : Int)
    (s : SubStream) (uuid : Nat → String) : List Task :=
  (List.range s.count).map (subtask_body parent simulation_end s uuid)

/-- Model of `generate_subtasks(tasks, subtask_rate, simulation_end)`
(src/src/generators/subtasks.py): keeps the tasks whose
`parent_task_id` is `None`, selects a subset of them (the
`biased_boolean(subtask_rate)` outcome per parent is `sel`), and
generates each selected parent's subtasks.  `ss j` / `uuid j` are the
draw streams consumed for the `j`-th selected parent. -/
def generate_subtasks (tasks : List Task) (simulation_end : Int)
    (sel : Nat → Bool) (ss : Nat → SubStream)
    (uuid : Nat → Nat → String) : List Task :=
  let parent_tasks := tasks.filter (fun t => t.parent_task_id.isNone)
  let tasks_with_subtasks :=
    ((parent_tasks.enum).filter (fun p => sel p.1)).map Prod.snd
  ((tasks_with_subtasks.enum).map
    (fun p => gen_subtasks_for p.2 simulation_end (ss p.1) (uuid p.1))).flatten

/-! ## Team memberships (src/src/generators/team_memberships.py)

Only the fields `generate_team_memberships` reads are modelled. -/

structure User where
  id : String
  role : String
  department : String
  is_active : Bool
  created_at : Int
  deriving DecidableEq, Repr

structure Team where
  id : String
  department : String
  created_at : Int
  deriving DecidableEq, Repr

structure Membership where
  id : String
  team_id : String
  user_id : String
  role : String
  joined_at : Int
  deriving DecidableEq, Repr

/-- Model of `generate_team_membership(team_id, user_id, role, joined_at)`
(src/src/generators/team_memberships.py); `uuid` is the unseeded
`str(uuid.uuid4())`. -/
def generate_team_membership (uuid team_id user_id role : String)
    (joined_at : Int) : Membership :=
  { id := uuid
    team_id := team_id
    user_id := user_id
    role := role
    joined_at := joined_at }

/-- Append `a` to the group keyed `k`, creating the group at the end if
absent — one step of Python's insertion-ordered dict grouping. -/
def addToGroup {α : Type} (gs : List (String × List α)) (k : String)
    (a : α) : List (String × List α) :=
  match gs with
  | [] => [(k, [a])]
  | (k', l) :: rest =>
    if k' = k then (k', l ++ [a]) :: rest
    else (k', l) :: addToGroup rest k a

/-- The `users_by_dept` / `teams_by_dept` grouping loops: a dict from
key to list, in key-insertion order. -/
def groupByKey {α : Type} (key : α → String) (xs : List α) :
    List (String × List α) :=
  xs.foldl (fun gs x => addToGroup gs (key x) x) []

/-- Model of `user["id"] in senior_users`, where `senior_users = {u["id"]: u for
u in users if u["role"] in ("senior", "lead")}`: true iff some user
with this id has role senior or lead. -/
def isSeniorId (users : List User) (uid : String) : Bool :=
  users.any (fun u => u.id == uid && (u.role == "senior" || u.role == "lead"))

/-- The step-3 lookup `next((u for u in users if u["id"] ==
mem["user_id"]), None)` followed by `user["role"] in ("senior",
"lead")`: the first user with this id decides. -/
def firstUserSenior (users : List User) (uid : String) : Bool :=
  match users.find? (fun u => u.id == uid) with
  | some u => u.role == "senior" || u.role == "lead"
  | none => false

/-- Number of lead-role memberships of a team so far — during step 1
this equals `len([m for m in team_members[team["id"]] if m["role"] ==
"lead"])`, since step 1 appends every membership to both lists. -/
def leadCount (mems : List Membership) (tid : String) : Nat :=
  (mems.filter (fun m => m.team_id == tid && m.role == "lead")).length

/-- Draw outcomes consumed by `generate_team_memberships`: `alloc j` is
the choice stream of the `j`-th `distribute_among` call; `rJoin k`,
`lead k` and `uuid k` are the join-date draw, the `random.random() <
0.3` outcome and the `uuid4` value of the `k`-th membership created;
`crossSel` is the outcome of the step-2 `random.sample` over active
users and `extraSel j` the outcome of the `j`-th cross-user's team
sample. -/
structure TMDraws where
  alloc : Nat → Nat → Nat
  rJoin : Nat → Int
  lead : Nat → Bool
  uuid : Nat → String
  crossSel : List User
  extraSel : Nat → List Team

/-- Membership list plus the running draw counter. -/
structure TMState where
  mems : List Membership
  k : Nat

/-- The step-1 placement of one user into one team: draw the join date
in `[join_start, join_start + 30 days]`, decide lead-ship
(`user in senior_users and <2 leads so far and random() < 0.3`), append
the membership. -/
def place_user (users : List User) (d : TMDraws) (team : Team) (u : User)
    (st : TMState) : TMState :=
  let join_start := max team.created_at u.created_at
  let joined_at := random_date_between join_start
    (join_start + 30 * secsPerDay) (d.rJoin st.k)
  let is_lead := isSeniorId users u.id
    && decide (leadCount st.mems team.id < 2) && d.lead st.k
  let m := generate_team_membership (d.uuid st.k) team.id u.id
    (if is_lead then "lead" else "member") joined_at
  { mems := st.mems ++ [m], k := st.k + 1 }

/-- The `for _ in range(size)` inner loop of step 1: places up to
`size` users from the department cursor, stopping at the end of
`dept_users`. -/
def assign_team (users : List User) (d : TMDraws)
    (dept_users : List User) (team : Team) (size : Int)
    (st : TMState × Nat) : TMState × Nat :=
  (List.range size.toNat).foldl
    (fun (p : TMState × Nat) _ =>
      match dept_users.get? p.2 with
      | some u => (place_user users d team u p.1, p.2 + 1)
      | none => p)
    st

/-- The `for team, size in zip(dept_teams, team_sizes)` loop of step 1,
with the department-local `user_idx` cursor. -/
def assign_dept (users : List User) (d : TMDraws)
    (dept_users : List User) (pairs : List (Team × Int))
    (st : TMState) : TMState :=
  (pairs.foldl
    (fun p (ts : Team × Int) => assign_team users d dept_users ts.1 ts.2 p)
    (st, 0)).1

/-- Step 1 of `generate_team_memberships`: primary team assignment per
department.  Propagates a `distribute_among` exception as `none`. -/
def tm_step1 (teams : List Team) (users : List User)
    (min_team_size : Int) (d : TMDraws) : Option TMState :=
  let teams_by_dept := groupByKey Team.department teams
  ((groupByKey User.department users).enum).foldlM
    (fun st (g : Nat × (String × List User)) => do
      let dept_users := g.2.2
      let dt0 := (teams_by_dept.lookup g.2.1).getD []
      let dept_teams := if dt0.isEmpty then teams else dt0
      let min_pb : Int :=
        if dept_teams.isEmpty then 0
        else min min_team_size
          ((dept_users.length : Int) / (dept_teams.length : Int))
      let sizes ← distribute_among (dept_users.length : Int)
        (dept_teams.length : Int) min_pb (d.alloc g.1)
      return assign_dept users d dept_users (dept_teams.zip sizes) st)
    ⟨[], 0⟩

/-- Step 2 of `generate_team_memberships`: cross-functional
assignments.  `d.crossSel` is the sampled user list (for the reachable
inputs it is a subset of the active users of size
`min(len, int(len * 0.2))`); users already in 3 teams are skipped; each
extra membership has role `member`. -/
def tm_step2 (teams : List Team) (d : TMDraws) (st : TMState) : TMState :=
  (d.crossSel.enum).foldl
    (fun st (p : Nat × User) =>
      let u := p.2
      if 3 ≤ (st.mems.filter (fun m => m.user_id == u.id)).length then st
      else
        let tids := (st.mems.filter
          (fun m => m.user_id == u.id)).map Membership.team_id
        let other_teams := teams.filter (fun t => !(tids.contains t.id))
        if other_teams.isEmpty then st
        else
          (d.extraSel p.1).foldl
            (fun st (team : Team) =>
              let join_start := max team.created_at u.created_at
              let joined_at := random_date_between join_start
                (join_start + 90 * secsPerDay) (d.rJoin st.k)
              let m := generate_team_membership (d.uuid st.k) team.id u.id
                "member" joined_at
              { mems := st.mems ++ [m], k := st.k + 1 })
            st)
    st

/-- Model of `mem["role"] = "lead"` on the object found by step 3: promotes the
first occurrence of `target` in the list. -/
def promoteFirst (mems : List Membership) (target : Membership) :
    List Membership :=
  match mems with
  | [] => []
  | m :: rest =>
    if m = target then { m with role := "lead" } :: rest
    else m :: promoteFirst rest target

/-- One team of the step-3 repair pass: if the team has memberships but
no lead, promote its first senior/lead-role member, or failing that its
first member (`for … else` in the source). -/
def repair_step (users : List User) (mems : List Membership)
    (team : Team) : List Membership :=
  let team_mems := mems.filter (fun m => m.team_id == team.id)
  let has_lead := team_mems.any (fun m => m.role == "lead")
  if has_lead || team_mems.isEmpty then mems
  else
    match team_mems.find? (fun m => firstUserSenior users m.user_id) with
    | some m => promoteFirst mems m
    | none =>
      match team_mems.head? with
      | some m => promoteFirst mems m
      | none => mems

/-- Step 3 of `generate_team_memberships`: the repair pass over all
teams. -/
def repair_leads (teams : List Team) (users : List User)
    (mems : List Membership) : List Membership :=
  teams.foldl (repair_step users) mems

/-- How the repair pass may change one membership record: everything
but the role is fixed, and a lead is never demoted. -/
def RoleStep (a b : Membership) : Prop :=
  a.team_id = b.team_id ∧ (a.role = "lead" → b.role = "lead")

/-- Model of `generate_team_memberships(teams, users, min_team_size,
max_team_size)` (src/src/generators/team_memberships.py).
`max_team_size` is accepted and never read, exactly as in the
source. -/
def generate_team_memberships (teams : List Team) (users : List User)
    (min_team_size max_team_size : Int) (d : TMDraws) :
    Option (List Membership) := do
  let st ← tm_step1 teams users min_team_size d
  let st := tm_step2 teams d st
  return repair_leads teams users st.mems

/-! ## Concrete fixtures

Small concrete inputs used to evaluate the embedded generators; every
draw value picked here lies inside the range of the `randint` /
`random.random()` call it stands for, so each evaluation is a reachable
run of the Python code. -/

/-- A completed parent task created at 10:00 of day 0 and completed at
11:00 of the same day, with due date on day 1. -/
def exParentDone : Task :=
  { id := "t0"
    name := "Implement auth endpoint"
    description := none
    project_id := "p1"
    section_id := "s1"
    assignee_id := some "u1"
    created_by_id := "u1"
    parent_task_id := none
    due_date := some 1
    created_at := 36000
    completed := 1
    completed_at := some 39600
    position := 0 }

/-- One subtask: creation stagger 0 seconds, completed, completion draw
3600 (the inclusive upper end of `randint(0, 3600)` for the interval
`[36000, 39600]`). -/
def exSubDraws : SubStream :=
  { count := 1
    name := fun _ => "Write tests"
    rCreated := fun _ => 0
    done := fun _ => true
    rCompleted := fun _ => 3600 }

/-- One subtask: creation stagger the full 2 days (the inclusive upper
end of `randint(0, 172800)`), left incomplete. -/
def exSubDrawsLate : SubStream :=
  { count := 1
    name := fun _ => "Code review"
    rCreated := fun _ => 172800
    done := fun _ => false
    rCompleted := fun _ => 0 }

/-- One subtask: creation stagger 1 day, landing on the parent's due
date, left incomplete. -/
def exSubDrawsDay1 : SubStream :=
  { count := 1
    name := fun _ => "QA verification"
    rCreated := fun _ => 86400
    done := fun _ => false
    rCompleted := fun _ => 0 }

/-- The subtask produced from `exParentDone` under `exSubDraws`:
created together with the parent, completed exactly at the parent's
completion time. -/
def exSubtask : Task :=
  generate_subtask exParentDone "Write tests" 0 36000 true (some 39600)
    "sub0"

/-- The subtask produced from `exParentDone` under `exSubDrawsLate`:
created two days after the parent, hence after the parent's
completion. -/
def exSubtaskLate : Task :=
  generate_subtask exParentDone "Code review" 0 208800 false none "sub1"

/-- Two engineering teams. -/
def exTeamA : Team := { id := "teamA", department := "Engineering", created_at := 0 }

def exTeamB : Team := { id := "teamB", department := "Engineering", created_at := 0 }

/-- A single junior engineer. -/
def exUser : User :=
  { id := "u1"
    role := "junior"
    department := "Engineering"
    is_active := true
    created_at := 0 }

/-- Membership draws: the single `distribute_among(1, 2, 0)` unit goes
to bucket 0; the step-2 `random.sample` over one active user with
`k = min(1, int(1 * 0.2)) = 0` returns the empty list. -/
def exTMDraws : TMDraws :=
  { alloc := fun _ _ => 0
    rJoin := fun _ => 0
    lead := fun _ => false
    uuid := fun _ => "m0"
    crossSel := []
    extraSel := fun _ => [] }

/-- The single membership the fixture run produces: `exUser` joins team
A as a member in step 1 and is promoted to lead by the repair pass. -/
def exMembership : Membership :=
  { id := "m0"
    team_id := "teamA"
    user_id := "u1"
    role := "lead"
    joined_at := 0 }

/-! ## Helper lemmas -/

theorem random_date_between_ge (start e r : Int) (hr : 0 ≤ r) :
    start ≤ random_date_between start e r := by
  unfold random_date_between
  split <;> omega

theorem random_date_between_le (start e r : Int) (hs : start ≤ e)
    (hr : r ≤ e - start) : random_date_between start e r ≤ e := by
  unfold random_date_between
  split <;> omega

theorem random_date_between_le_max (start e r : Int) (hr : r ≤ e - start) :
    random_date_between start e r ≤ max start e := by
  unfold random_date_between
  rcases le_total start e with h | h <;> split <;>
    simp [max_def] <;> omega

theorem bump_cons_succ (a : Int) (t : List Int) (n : Nat) :
    bump (a :: t) (n + 1) = a :: bump t n := rfl

theorem bump_cons_zero (a : Int) (t : List Int) :
    bump (a :: t) 0 = (a + 1) :: t := rfl

theorem bump_length (l : List Int) (i : Nat) :
    (bump l i).length = l.length := by
  simp [bump]

theorem bump_sum (l : List Int) (i : Nat) (h : i < l.length) :
    (bump l i).sum = l.sum + 1 := by
  induction l generalizing i with
  | nil => simp at h
  | cons a t ih =>
    cases i with
    | zero => simp [bump_cons_zero]; ring
    | succ n =>
      rw [bump_cons_succ, List.sum_cons, List.sum_cons,
        ih n (by simpa using h)]
      ring

theorem bump_nonneg (l : List Int) (i : Nat) (h : ∀ x ∈ l, 0 ≤ x) :
    ∀ x ∈ bump l i, 0 ≤ x := by
  induction l generalizing i with
  | nil => simp [bump]
  | cons a t ih =>
    cases i with
    | zero =>
      rw [bump_cons_zero]
      intro x hx
      rcases List.mem_cons.mp hx with h1 | h1
      · have := h a (by simp)
        omega
      · exact h x (List.mem_cons_of_mem _ h1)
    | succ n =>
      rw [bump_cons_succ]
      intro x hx
      rcases List.mem_cons.mp hx with h1 | h1
      · exact h1 ▸ h a (by simp)
      · exact ih n (fun y hy => h y (List.mem_cons_of_mem _ hy)) x h1

/-- The unit-distribution loop of `distribute_among` never raises when
all counts are non-negative, and adds exactly one unit per round. -/
theorem fold_bump_spec (c : Nat → Nat) (is : List Nat) (acc : List Int)
    (hnn : ∀ x ∈ acc, 0 ≤ x) (hc : ∀ i, c i < acc.length) :
    ∃ l, is.foldlM
        (fun acc i =>
          if (-1 : Int) ∈ acc then none else some (bump acc (c i))) acc
      = some l
      ∧ l.length = acc.length ∧ l.sum = acc.sum + is.length
      ∧ ∀ x ∈ l, 0 ≤ x := by
  induction is generalizing acc with
  | nil => exact ⟨acc, by simp, rfl, by simp, hnn⟩
  | cons j js ih =>
    have hmem : (-1 : Int) ∉ acc := fun hm => by
      have := hnn _ hm; omega
    have hnn' := bump_nonneg acc (c j) hnn
    have hc' : ∀ i, c i < (bump acc (c j)).length := by
      simpa [bump_length] using hc
    obtain ⟨l, hl, hlen, hsum, hpos⟩ := ih (bump acc (c j)) hnn' hc'
    refine ⟨l, ?_, ?_, ?_, hpos⟩
    · rw [List.foldlM_cons, if_neg hmem]
      simpa using hl
    · rw [hlen, bump_length]
    · rw [hsum, bump_sum acc (c j) (hc j)]
      simp only [List.length_cons]
      push_cast
      ring

/-- Sum of the fallback even split over `n` buckets. -/
theorem sum_even_split (n : Nat) (base rem : Int) (h0 : 0 ≤ rem) :
    ((List.range n).map
      (fun (i : Nat) => if (i : Int) < rem then base + 1 else base)).sum
      = n * base + min rem n := by
  induction n with
  | zero => simp [min_def]; omega
  | succ n ih =>
    rw [List.range_succ, List.map_append, List.sum_append, ih]
    simp only [List.map_cons, List.map_nil, List.sum_cons, List.sum_nil,
      add_zero]
    push_cast
    rcases lt_or_le (n : Int) rem with h | h
    · rw [if_pos h, min_eq_right (by omega : (n : Int) ≤ rem),
        min_eq_right (by omega : (n : Int) + 1 ≤ rem)]
      ring
    · rw [if_neg (not_lt.mpr h), min_eq_left h,
        min_eq_left (by omega : rem ≤ (n : Int) + 1)]
      ring

theorem snd_mem_of_mem_enum {α : Type} {l : List α} {p : Nat × α}
    (h : p ∈ l.enum) : p.2 ∈ l :=
  List.getElem?_mem (List.mem_enum_iff_getElem?.mp h)

theorem dateOf_add_days (t k : Int) :
    dateOf (t + k * secsPerDay) = dateOf t + k := by
  unfold dateOf secsPerDay
  exact Int.add_mul_ediv_right t k (by norm_num)

/-- Field-level characterisation of one generated subtask. -/
theorem subtask_body_spec (parent : Task) (e : Int) (s : SubStream)
    (uuid : Nat → String) (i : Nat) :
    (subtask_body parent e s uuid i).parent_task_id = some parent.id ∧
    (subtask_body parent e s uuid i).due_date = parent.due_date ∧
    (subtask_body parent e s uuid i).created_at
      = random_date_between parent.created_at
          (parent.created_at + 2 * secsPerDay) (s.rCreated i) ∧
    (parent.completed ≠ 0 → (subtask_body parent e s uuid i).completed = 1 →
      ∃ pca, parent.completed_at = some pca ∧
        (subtask_body parent e s uuid i).completed_at
          = some (random_date_between
              ((subtask_body parent e s uuid i).created_at) pca
              (s.rCompleted i))) := by
  unfold subtask_body
  by_cases hpc : parent.completed ≠ 0 <;>
    rcases hpa : parent.completed_at with _ | pca <;>
      by_cases hd : s.done i <;>
        simp [hpc, hpa, hd, generate_subtask]

theorem mem_gen_subtasks_for {parent : Task} {e : Int} {s : SubStream}
    {uuid : Nat → String} {x : Task}
    (hx : x ∈ gen_subtasks_for parent e s uuid) :
    ∃ i, i < s.count ∧ x = subtask_body parent e s uuid i := by
  unfold gen_subtasks_for at hx
  rcases List.mem_map.mp hx with ⟨i, hi, hxe⟩
  exact ⟨i, List.mem_range.mp hi, hxe.symm⟩

/-- Every subtask of the stage output comes from some parent of the
input list whose `parent_task_id` is null. -/
theorem mem_generate_subtasks {tasks : List Task} {e : Int}
    {sel : Nat → Bool} {ss : Nat → SubStream} {uuid : Nat → Nat → String}
    {x : Task} (hx : x ∈ generate_subtasks tasks e sel ss uuid) :
    ∃ j parent, parent ∈ tasks ∧ parent.parent_task_id = none ∧
      x ∈ gen_subtasks_for parent e (ss j) (uuid j) := by
  simp only [generate_subtasks] at hx
  rcases List.mem_flatten.mp hx with ⟨l, hl, hxl⟩
  rcases List.mem_map.mp hl with ⟨p, hp, rfl⟩
  have h2 : p.2 ∈ ((tasks.filter
      (fun t => t.parent_task_id.isNone)).enum.filter
        (fun q => sel q.1)).map Prod.snd := snd_mem_of_mem_enum hp
  rcases List.mem_map.mp h2 with ⟨q, hq, hq2⟩
  have hq3 := (List.mem_filter.mp hq).1
  have hq4 : q.2 ∈ tasks.filter (fun t => t.parent_task_id.isNone) :=
    snd_mem_of_mem_enum hq3
  have hq5 := List.mem_filter.mp hq4
  refine ⟨p.1, p.2, ?_, ?_, hxl⟩
  · rw [← hq2]
    exact hq5.1
  · rw [← hq2]
    exact Option.isNone_iff_eq_none.mp (by simpa using hq5.2)

theorem sansId_subtask_body (parent : Task) (e : Int) (s : SubStream)
    (u₁ u₂ : Nat → String) (i : Nat) :
    sansId (subtask_body parent e s u₁ i)
      = sansId (subtask_body parent e s u₂ i) := by
  unfold subtask_body
  by_cases hpc : parent.completed ≠ 0 <;>
    rcases hpa : parent.completed_at with _ | pca <;>
      by_cases hd : s.done i <;>
        simp [hpc, hpa, hd, generate_subtask, sansId]

theorem map_sansId_gen_subtasks_for (parent : Task) (e : Int)
    (s : SubStream) (u₁ u₂ : Nat → String) :
    (gen_subtasks_for parent e s u₁).map sansId
      = (gen_subtasks_for parent e s u₂).map sansId := by
  unfold gen_subtasks_for
  rw [List.map_map, List.map_map]
  exact List.map_congr_left
    (fun i _ => sansId_subtask_body parent e s u₁ u₂ i)

/-- The weekday-retry loop never leaves `[start, end]` when its draws
are in range. -/
theorem bizRetry_bounds (start e : Int) (cont : Nat → Bool)
    (rR : Nat → Int) (hs : start ≤ e)
    (hr : ∀ i, 0 ≤ rR i ∧ rR i ≤ e - start) :
    ∀ (fuel i : Nat) (result : Int), start ≤ result → result ≤ e →
      start ≤ bizRetry start e cont rR fuel i result ∧
      bizRetry start e cont rR fuel i result ≤ e := by
  intro fuel
  induction fuel with
  | zero =>
    intro i result h1 h2
    simpa only [bizRetry] using ⟨h1, h2⟩
  | succ n ih =>
    intro i result h1 h2
    simp only [bizRetry]
    by_cases hc : cont i
    · rw [if_pos hc]
      by_cases hw : weekday result < 5
      · rw [if_pos hw]
        exact ⟨h1, h2⟩
      · rw [if_neg hw]
        exact ih (i + 1) _ (random_date_between_ge _ _ _ (hr i).1)
          (random_date_between_le _ _ _ hs (hr i).2)
    · rw [if_neg hc]
      exact ⟨h1, h2⟩

/-- The business-hours adjustment keeps the calendar day. -/
theorem dateOf_replaceHourMinute (t h m : Int) (hh0 : 0 ≤ h)
    (hh1 : h ≤ 23) (hm0 : 0 ≤ m) (hm1 : m ≤ 59) :
    dateOf (replaceHourMinute t h m) = dateOf t := by
  unfold replaceHourMinute dateOf secsPerDay
  have h60a : 0 ≤ t % 60 := Int.emod_nonneg t (by norm_num)
  have h60b : t % 60 < 60 := Int.emod_lt_of_pos t (by norm_num)
  have hre : t / 86400 * 86400 + h * 3600 + m * 60 + t % 60
      = (h * 3600 + m * 60 + t % 60) + t / 86400 * 86400 := by ring
  rw [hre, Int.add_mul_ediv_right _ _ (by norm_num : (86400 : Int) ≠ 0),
    Int.ediv_eq_zero_of_lt (by omega) (by omega), zero_add]

theorem roleStep_refl (m : Membership) : RoleStep m m := ⟨rfl, id⟩

theorem forall₂_roleStep_refl (l : List Membership) :
    List.Forall₂ RoleStep l l :=
  List.forall₂_same.mpr (fun m _ => roleStep_refl m)

theorem forall₂_roleStep_trans : ∀ {l₁ l₂ l₃ : List Membership},
    List.Forall₂ RoleStep l₁ l₂ → List.Forall₂ RoleStep l₂ l₃ →
    List.Forall₂ RoleStep l₁ l₃ := by
  intro l₁ l₂ l₃ h₁
  induction h₁ generalizing l₃ with
  | nil =>
    intro h₂
    cases h₂
    exact List.Forall₂.nil
  | cons hab h ih =>
    intro h₂
    cases h₂ with
    | cons hbc h₂' =>
      exact List.Forall₂.cons
        ⟨hab.1.trans hbc.1, fun hl => hbc.2 (hab.2 hl)⟩ (ih h₂')

theorem forall₂_roleStep_mem_right : ∀ {l₁ l₂ : List Membership},
    List.Forall₂ RoleStep l₁ l₂ → ∀ b ∈ l₂, ∃ a ∈ l₁, RoleStep a b := by
  intro l₁ l₂ h
  induction h with
  | nil => simp
  | cons hab h ih =>
    intro b hb
    rcases List.mem_cons.mp hb with rfl | hb'
    · exact ⟨_, List.mem_cons_self _ _, hab⟩
    · rcases ih b hb' with ⟨a, ha, hr⟩
      exact ⟨a, List.mem_cons_of_mem _ ha, hr⟩

theorem forall₂_roleStep_mem_left : ∀ {l₁ l₂ : List Membership},
    List.Forall₂ RoleStep l₁ l₂ → ∀ a ∈ l₁, ∃ b ∈ l₂, RoleStep a b := by
  intro l₁ l₂ h
  induction h with
  | nil => simp
  | cons hab h ih =>
    intro a ha
    rcases List.mem_cons.mp ha with rfl | ha'
    · exact ⟨_, List.mem_cons_self _ _, hab⟩
    · rcases ih a ha' with ⟨b, hb, hr⟩
      exact ⟨b, List.mem_cons_of_mem _ hb, hr⟩

theorem promoteFirst_evolves (mems : List Membership)
    (target : Membership) :
    List.Forall₂ RoleStep mems (promoteFirst mems target) := by
  induction mems with
  | nil => exact List.Forall₂.nil
  | cons m rest ih =>
    unfold promoteFirst
    by_cases h : m = target
    · rw [if_pos h]
      exact List.Forall₂.cons ⟨rfl, fun _ => rfl⟩ (forall₂_roleStep_refl rest)
    · rw [if_neg h]
      exact List.Forall₂.cons (roleStep_refl m) ih

theorem mem_promoteFirst_of_mem {mems : List Membership}
    {target : Membership} (h : target ∈ mems) :
    { target with role := "lead" } ∈ promoteFirst mems target := by
  induction mems with
  | nil => cases h
  | cons m rest ih =>
    unfold promoteFirst
    by_cases he : m = target
    · rw [if_pos he, he]
      exact List.mem_cons_self _ _
    · rw [if_neg he]
      rcases List.mem_cons.mp h with h' | h'
      · exact absurd h'.symm he
      · exact List.mem_cons_of_mem _ (ih h')

theorem head?_mem {α : Type} {l : List α} {a : α} (h : l.head? = some a) :
    a ∈ l := by
  cases l with
  | nil => cases h
  | cons x xs =>
    simp only [List.head?_cons, Option.some.injEq] at h
    exact h ▸ List.mem_cons_self _ _

theorem repair_step_evolves (users : List User) (mems : List Membership)
    (team : Team) :
    List.Forall₂ RoleStep mems (repair_step users mems team) := by
  simp only [repair_step]
  split_ifs with h
  · exact forall₂_roleStep_refl mems
  · split
    · exact promoteFirst_evolves mems _
    · split
      · exact promoteFirst_evolves mems _
      · exact forall₂_roleStep_refl mems

/-- One repair step makes a lead for its own team (when the team has a
membership at all). -/
theorem repair_step_gives_lead (users : List User)
    (mems : List Membership) (team : Team)
    (hm : ∃ m ∈ repair_step users mems team, m.team_id = team.id) :
    ∃ m ∈ repair_step users mems team,
      m.team_id = team.id ∧ m.role = "lead" := by
  by_cases hcond : ((mems.filter (fun m => m.team_id == team.id)).any
      (fun m => m.role == "lead")
    || (mems.filter (fun m => m.team_id == team.id)).isEmpty) = true
  · have hres : repair_step users mems team = mems := by
      unfold repair_step
      rw [if_pos hcond]
    rw [hres] at hm ⊢
    rcases Bool.or_eq_true_iff.mp hcond with hany | hemp
    · rcases List.any_eq_true.mp hany with ⟨m, hmem, hrole⟩
      have h1 := List.mem_filter.mp hmem
      refine ⟨m, h1.1, ?_, ?_⟩
      · simpa using h1.2
      · simpa using hrole
    · rcases hm with ⟨m, hmem, htid⟩
      have : m ∈ mems.filter (fun m => m.team_id == team.id) :=
        List.mem_filter.mpr ⟨hmem, by simpa using htid⟩
      rw [List.isEmpty_iff.mp hemp] at this
      cases this
  · have hstep : ∃ m₀ ∈ mems.filter (fun m => m.team_id == team.id),
        repair_step users mems team = promoteFirst mems m₀ := by
      unfold repair_step
      rw [if_neg hcond]
      cases hf : (mems.filter (fun m => m.team_id == team.id)).find?
          (fun m => firstUserSenior users m.user_id) with
      | some m₀ => exact ⟨m₀, List.mem_of_find?_eq_some hf, rfl⟩
      | none =>
        cases hh : (mems.filter (fun m => m.team_id == team.id)).head? with
        | some m₀ => exact ⟨m₀, head?_mem hh, rfl⟩
        | none =>
          exfalso
          apply hcond
          have : (mems.filter (fun m => m.team_id == team.id)) = [] :=
            List.head?_eq_none_iff.mp hh
          simp [this]
    rcases hstep with ⟨m₀, hm₀, hres⟩
    have h1 := List.mem_filter.mp hm₀
    refine ⟨{ m₀ with role := "lead" }, ?_, ?_, rfl⟩
    · rw [hres]
      exact mem_promoteFirst_of_mem h1.1
    · simpa using h1.2

theorem repair_leads_cons (users : List User) (t : Team)
    (rest : List Team) (mems : List Membership) :
    repair_leads (t :: rest) users mems
      = repair_leads rest users (repair_step users mems t) := rfl

theorem repair_leads_evolves (users : List User) : ∀ (ts : List Team)
    (l : List Membership), List.Forall₂ RoleStep l (repair_leads ts users l) := by
  intro ts
  induction ts with
  | nil => exact fun l => forall₂_roleStep_refl l
  | cons t rest ih =>
    intro l
    rw [repair_leads_cons]
    exact forall₂_roleStep_trans (repair_step_evolves users l t)
      (ih (repair_step users l t))

/-- After the whole repair pass, every team that has a membership has a
lead membership. -/
theorem repair_leads_lead (users : List User) : ∀ (ts : List Team)
    (mems : List Membership) (t : Team), t ∈ ts →
    (∃ m ∈ repair_leads ts users mems, m.team_id = t.id) →
    ∃ m ∈ repair_leads ts users mems,
      m.team_id = t.id ∧ m.role = "lead" := by
  intro ts
  induction ts with
  | nil =>
    intro mems t ht
    cases ht
  | cons t' rest ih =>
    intro mems t ht hm
    rw [repair_leads_cons] at hm ⊢
    rcases List.mem_cons.mp ht with rfl | hrest
    · have hev := repair_leads_evolves users rest (repair_step users mems t)
      have hback : ∃ m ∈ repair_step users mems t, m.team_id = t.id := by
        rcases hm with ⟨m, hmem, htid⟩
        rcases forall₂_roleStep_mem_right hev m hmem with ⟨a, ha, hr⟩
        exact ⟨a, ha, hr.1.trans htid⟩
      rcases repair_step_gives_lead users mems t hback with
        ⟨m, hmem, htid, hrole⟩
      rcases forall₂_roleStep_mem_left hev m hmem with ⟨b, hb, hr⟩
      exact ⟨b, hb, hr.1 ▸ htid, hr.2 hrole⟩
    · exact ih (repair_step users mems t') t hrest hm

/-! ## Claim theorems -/

/-- C2: `generate_completion_time` can return a completion time later
than `now`, against the claim (and the dates.py module docstring
`task.completed_at <= NOW()`).  With `created_at` 30 minutes before
`now` (`created_at = 0`, `now = 1800`), cycle-time draw 1 day
(`uniform(1, 2)` band, `days_secs = 86400`), clamp draw `h1 = 1 ∈
[1, 24]` and push draw `h2 = 1 ∈ [1, 48]`, the clamp makes
`completed_at = now - 1h < created_at`, and the subsequent push returns
`created_at + 1h = 3600 > now`.  Such a `created_at` is reachable:
`generate_tasks` draws creation times with `random_business_date`,
whose business-hours adjustment can land within an hour of
`simulation_end`. -/
theorem generate_completion_time_exceeds_now :
    generate_completion_time 0 1800 86400 1 1 = 3600 ∧ (1800 : Int) < 3600 := by
  constructor
  · rfl
  · norm_num

/-- C3 counterexample: `distribute_among` is not total over all
`min_per_bucket`.  At `total = 0`, `buckets = 1`,
`min_per_bucket = -1` the feasibility test passes
(`remaining = 1 ≥ 0`), the buckets start at `-1`, and the first
weight computation `1.0 / (count + 1)` raises `ZeroDivisionError`
(`none`) — so it does not return 1 non-negative integer summing to
0 as the claim states. -/
theorem distribute_among_negative_min_raises :
    distribute_among 0 1 (-1) (fun _ => 0) = none := by
  decide

/-- C3 (amended): for all non-negative `total`, all `buckets`, and all
NON-NEGATIVE `min_per_bucket`, `distribute_among` returns exactly
`buckets` non-negative integers summing exactly to `total`; zero
buckets yields the empty partition; when
`total < min_per_bucket * buckets` it degrades to the deterministic
even split, independent of the randomness stream, with e.g.
`distribute_among 3 5 1 = [1, 1, 1, 0, 0]`.  (The original claim over
all `min_per_bucket`, including negative ones, fails:
`distribute_among_negative_min_raises`.) -/
theorem distribute_among_spec (total min_per_bucket : Int) (buckets : Nat)
    (c : Nat → Nat) (htotal : 0 ≤ total) (hmin : 0 ≤ min_per_bucket) :
    ((∀ i, c i < buckets) →
      ∃ l, distribute_among total buckets min_per_bucket c = some l ∧
        l.length = buckets ∧ l.sum = total ∧ ∀ x ∈ l, 0 ≤ x) ∧
    (buckets = 0 →
      distribute_among total buckets min_per_bucket c = some []) ∧
    (total < min_per_bucket * buckets → ∀ c₂ : Nat → Nat,
      distribute_among total buckets min_per_bucket c
        = distribute_among total buckets min_per_bucket c₂) ∧
    distribute_among 3 5 1 c = some [1, 1, 1, 0, 0] := by
  refine ⟨?_, ?_, ?_, ?_⟩
  · intro hc
    rcases Nat.eq_zero_or_pos buckets with hb | hb
    · exact absurd (hb ▸ hc 0) (Nat.not_lt_zero _)
    have hbI : (0 : Int) < (buckets : Int) := by exact_mod_cast hb
    unfold distribute_among
    rw [if_neg (by omega : ¬ ((buckets : Int) ≤ 0))]
    set remaining := total - min_per_bucket * (buckets : Int) with hrem
    by_cases hneg : remaining < 0
    · rw [if_pos hneg]
      simp only [Int.toNat_natCast]
      have h0 : (0 : Int) ≤ total % (buckets : Int) :=
        Int.emod_nonneg total (by omega)
      have hltb : total % (buckets : Int) < (buckets : Int) :=
        Int.emod_lt_of_pos total hbI
      have hbase : (0 : Int) ≤ total / (buckets : Int) :=
        Int.ediv_nonneg htotal hbI.le
      refine ⟨_, rfl, by simp, ?_, ?_⟩
      · rw [sum_even_split _ _ _ h0, min_eq_left hltb.le]
        exact Int.ediv_add_emod total (buckets : Int)
      · intro x hx
        rcases List.mem_map.mp hx with ⟨i, _, hi⟩
        by_cases hlt2 : (i : Int) < total % (buckets : Int)
        · rw [if_pos hlt2] at hi
          omega
        · rw [if_neg hlt2] at hi
          omega
    · rw [if_neg hneg]
      simp only [Int.toNat_natCast]
      have hnn : ∀ x ∈ List.replicate buckets min_per_bucket, (0 : Int) ≤ x := by
        intro x hx
        rw [List.eq_of_mem_replicate hx]
        exact hmin
      have hc' : ∀ i, c i < (List.replicate buckets min_per_bucket).length := by
        simpa using hc
      obtain ⟨l, hl, hlen, hsum, hpos⟩ :=
        fold_bump_spec c (List.range remaining.toNat)
          (List.replicate buckets min_per_bucket) hnn hc'
      refine ⟨l, hl, by simpa using hlen, ?_, hpos⟩
      rw [hsum]
      simp only [List.sum_replicate, List.length_range, nsmul_eq_mul]
      rw [Int.toNat_of_nonneg (by omega : (0 : Int) ≤ remaining)]
      have hcomm : (buckets : Int) * min_per_bucket
          = min_per_bucket * (buckets : Int) := mul_comm _ _
      omega
  · intro hb
    subst hb
    simp [distribute_among]
  · intro hlt c₂
    rcases Nat.eq_zero_or_pos buckets with hb | hb
    · subst hb
      simp [distribute_among]
    · have h1 : ¬ ((buckets : Int) ≤ 0) := by
        have : (0 : Int) < (buckets : Int) := by exact_mod_cast hb
        omega
      have h2 : total - min_per_bucket * (buckets : Int) < 0 := by omega
      simp [distribute_among, h1, h2]
  · rfl

/-- C3 witness: `distribute_among 7 3 1` with the constant-zero choice
stream returns three non-negative integers summing to 7. -/
theorem distribute_among_spec_witness :
    ∃ l, distribute_among 7 3 1 (fun _ => 0) = some l ∧
      l.length = 3 ∧ l.sum = 7 ∧ ∀ x ∈ l, 0 ≤ x :=
  (distribute_among_spec 7 1 3 (fun _ => 0) (by norm_num) (by norm_num)).1
    (fun _ => by norm_num)

/-- C4 counterexample: `weighted_choice` is not total — on the empty
weight map the unpacking `choices, weights = zip(*items)` raises
`ValueError` (`none`), against the claim that it never throws for any
weight map. -/
theorem weighted_choice_empty_map_raises :
    weighted_choice ([] : List (String × Rat)) 0 = none := rfl

/-- C4 (amended): `weighted_choice` on a map with exactly one entry of
non-zero weight always returns that entry (in particular
`weighted_choice {"x": 1} = "x"`, Scenario C), but it is not a total
function: it raises on an empty map
(`weighted_choice_empty_map_raises`) and on a map whose weights sum to
zero (the normalisation `w / total` divides by zero). -/
theorem weighted_choice_spec :
    (∀ (α : Type) (x : α) (w : Rat) (pick : Nat), w ≠ 0 →
      weighted_choice [(x, w)] pick = some x) ∧
    weighted_choice [(("x" : String), (0 : Rat))] 0 = none ∧
    weighted_choice [(("x" : String), (1 : Rat))] 5 = some "x" := by
  have key : ∀ (α : Type) (x : α) (w : Rat) (pick : Nat), w ≠ 0 →
      weighted_choice [(x, w)] pick = some x := by
    intro α x w pick hw
    simp [weighted_choice, hw, Nat.mod_one]
  exact ⟨key, by simp [weighted_choice], key String "x" 1 5 one_ne_zero⟩

/-- C4 witness: a singleton weight map with weight 2 returns its only
key. -/
theorem weighted_choice_spec_witness :
    weighted_choice [(("y" : String), (2 : Rat))] 0 = some "y" :=
  weighted_choice_spec.1 String "y" 2 0 (by norm_num)

/-- C1 counterexample: the record ids come from `uuid.uuid4()`
(operating-system entropy), not from the seeded random stream, so two
runs with identical seed and configuration can produce these two
different records for the same task — the output collections are not
byte-identical. -/
theorem generate_task_id_not_seed_determined :
    generate_task "a7f3e210-1111-4a61-9e1f-000000000001"
        "Implement auth endpoint" none "p1" "s1" none "u1" 36000 none
        false none 0 none
      ≠ generate_task "a7f3e210-1111-4a61-9e1f-000000000002"
        "Implement auth endpoint" none "p1" "s1" none "u1" 36000 none
        false none 0 none := by
  decide

/-- C1 (amended): with identical seed, configuration and prior-stage
inputs, the task and subtask stages are deterministic in every field
that derives from the seeded random stream — the outputs of two runs
agree everywhere except possibly in the `id` fields, which come from
the unseeded `uuid.uuid4()` source.  Byte-identical output holds only
when the UUID source is also fixed. -/
theorem generation_deterministic_modulo_ids :
    (∀ (u₁ u₂ name : String) (description : Option String)
        (project_id section_id : String) (assignee_id : Option String)
        (created_by_id : String) (created_at : Int)
        (due_date : Option Int) (completed : Bool)
        (completed_at : Option Int) (position : Nat)
        (parent_task_id : Option String),
      sansId (generate_task u₁ name description project_id section_id
          assignee_id created_by_id created_at due_date completed
          completed_at position parent_task_id)
        = sansId (generate_task u₂ name description project_id section_id
          assignee_id created_by_id created_at due_date completed
          completed_at position parent_task_id)) ∧
    (∀ (tasks : List Task) (e : Int) (sel : Nat → Bool)
        (ss : Nat → SubStream) (u₁ u₂ : Nat → Nat → String),
      (generate_subtasks tasks e sel ss u₁).map sansId
        = (generate_subtasks tasks e sel ss u₂).map sansId) := by
  constructor
  · intro u₁ u₂ name description project_id section_id assignee_id
      created_by_id created_at due_date completed completed_at position
      parent_task_id
    rfl
  · intro tasks e sel ss u₁ u₂
    simp only [generate_subtasks, List.map_flatten, List.map_map]
    congr 1
    exact List.map_congr_left
      (fun p _ => map_sansId_gen_subtasks_for p.2 e (ss p.1)
        (u₁ p.1) (u₂ p.1))

/-- C6 counterexample: a subtask inherits its parent's due date while
its own creation is staggered up to two days after the parent's, so
its `due_date` need not be after its own `created_at`.  Here the
subtask is created on day 1 (draw 86400 of `randint(0, 172800)`) and
its inherited due date is day 1: `due_date > created_at` (as dates)
fails. -/
theorem subtask_due_date_not_after_creation :
    (generate_subtasks [exParentDone] 999999 (fun _ => true)
        (fun _ => exSubDrawsDay1) (fun _ _ => "sub2")).map
      (fun x => (x.due_date, dateOf x.created_at)) = [(some 1, 1)] := by
  decide

/-- C6 (amended): parent tasks satisfy the claim — whenever
`generate_due_date` returns a date it is strictly after `created_at`'s
date, for every branch of the distribution; subtasks, however, inherit
the parent's due date unchanged, so a subtask's `due_date` is strictly
after the PARENT's creation date but not necessarily after the
subtask's own `created_at`
(`subtask_due_date_not_after_creation`). -/
theorem due_date_spec :
    (∀ (created_at now : Int) (roll : Rat) (d₁ d₂ d₃ d₄ : Int),
      1 ≤ d₂ → 1 ≤ d₃ → 1 ≤ d₄ →
      ∀ d, generate_due_date created_at now roll d₁ d₂ d₃ d₄ = some d →
        dateOf created_at < d) ∧
    (∀ (tasks : List Task) (e : Int) (sel : Nat → Bool)
        (ss : Nat → SubStream) (uuid : Nat → Nat → String),
      ∀ x ∈ generate_subtasks tasks e sel ss uuid,
        ∃ t ∈ tasks, x.parent_task_id = some t.id ∧
          x.due_date = t.due_date) := by
  constructor
  · intro created_at now roll d₁ d₂ d₃ d₄ h₂ h₃ h₄ d hd
    simp only [generate_due_date] at hd
    have hone : dateOf (created_at + secsPerDay) = dateOf created_at + 1 := by
      simpa using dateOf_add_days created_at 1
    split_ifs at hd with hr₁ hr₂ hin hr₃ hr₄
    · simp only [Option.some.injEq] at hd
      omega
    · simp only [Option.some.injEq] at hd
      omega
    · simp only [Option.some.injEq] at hd
      rw [dateOf_add_days] at hd
      omega
    · simp only [Option.some.injEq] at hd
      rw [dateOf_add_days] at hd
      omega
    · simp only [Option.some.injEq] at hd
      rw [dateOf_add_days] at hd
      omega
  · intro tasks e sel ss uuid x hx
    obtain ⟨j, parent, hpt, _, hxin⟩ := mem_generate_subtasks hx
    obtain ⟨i, _, rfl⟩ := mem_gen_subtasks_for hxin
    obtain ⟨hpid, hdue, _, _⟩ :=
      subtask_body_spec parent e (ss j) (uuid j) i
    exact ⟨parent, hpt, hpid, hdue⟩

/-- C6 witness: `generate_due_date` at `created_at = 0`,
`now = 10^6`, roll `1/2` (the within-a-month branch) and draw 8 days
returns day 8, strictly after day 0. -/
theorem due_date_spec_witness : dateOf 0 < 8 :=
  due_date_spec.1 0 1000000 (1 / 2) 1 1 8 31 (by norm_num) (by norm_num)
    (by norm_num) 8
    (by norm_num [generate_due_date, dateOf, secsPerDay])

/-- C7: every record the subtask stage emits points, via
`parent_task_id`, at a task of the input collection whose own
`parent_task_id` is null — exactly one level of nesting. -/
theorem generate_subtasks_single_nesting (tasks : List Task) (e : Int)
    (sel : Nat → Bool) (ss : Nat → SubStream)
    (uuid : Nat → Nat → String) :
    ∀ x ∈ generate_subtasks tasks e sel ss uuid,
      ∃ t ∈ tasks, x.parent_task_id = some t.id ∧
        t.parent_task_id = none := by
  intro x hx
  obtain ⟨j, parent, hpt, hnone, hxin⟩ := mem_generate_subtasks hx
  obtain ⟨i, _, rfl⟩ := mem_gen_subtasks_for hxin
  obtain ⟨hpid, _, _, _⟩ := subtask_body_spec parent e (ss j) (uuid j) i
  exact ⟨parent, hpt, hpid, hnone⟩

/-- C7 witness: the concrete subtask generated from `exParentDone`
references it, and `exParentDone` is itself a parent task. -/
theorem generate_subtasks_single_nesting_witness :
    ∃ t ∈ [exParentDone], exSubtask.parent_task_id = some t.id ∧
      t.parent_task_id = none :=
  generate_subtasks_single_nesting [exParentDone] 999999 (fun _ => true)
    (fun _ => exSubDraws) (fun _ _ => "sub0") exSubtask (by decide)

/-- C9 counterexample: the subtask of a completed parent is completed
via `random_date_between(subtask_created, parent_completed_at)`, whose
upper end is inclusive — here the completion draw hits the parent's own
completion time 39600, so the subtask does NOT complete strictly
before the parent. -/
theorem subtask_completion_not_strictly_before_parent :
    (generate_subtasks [exParentDone] 999999 (fun _ => true)
        (fun _ => exSubDraws) (fun _ _ => "sub0")).map
      (fun x => (x.completed, x.completed_at)) = [(1, some 39600)] ∧
    exParentDone.completed = 1 ∧
    exParentDone.completed_at = some 39600 := by
  decide

/-- C9 (amended): for a completed subtask of a completed parent, the
completion time lies at or after the subtask's creation; it is at or
before the parent's completion time whenever the subtask was created
at or before it (equality included — not strictly before), and it
EQUALS the subtask's creation time — after the parent's completion —
whenever the subtask was created after the parent completed.  The
hypotheses are exactly the ranges of the `randint` draws. -/
theorem gen_subtasks_for_completion_bound (parent : Task) (e : Int)
    (s : SubStream) (uuid : Nat → String)
    (hr : ∀ i, 0 ≤ s.rCompleted i)
    (hub : ∀ i pca, parent.completed_at = some pca →
      random_date_between parent.created_at
          (parent.created_at + 2 * secsPerDay) (s.rCreated i) < pca →
      s.rCompleted i ≤ pca - random_date_between parent.created_at
          (parent.created_at + 2 * secsPerDay) (s.rCreated i)) :
    ∀ x ∈ gen_subtasks_for parent e s uuid,
      parent.completed ≠ 0 → x.completed = 1 →
      ∃ c pca, x.completed_at = some c ∧
        parent.completed_at = some pca ∧
        x.created_at ≤ c ∧
        (x.created_at ≤ pca → c ≤ pca) ∧
        (pca ≤ x.created_at → c = x.created_at) := by
  intro x hx hpc hxc
  obtain ⟨i, _, rfl⟩ := mem_gen_subtasks_for hx
  obtain ⟨_, _, hcreated, hcomp⟩ := subtask_body_spec parent e s uuid i
  obtain ⟨pca, hpca, hca⟩ := hcomp hpc hxc
  refine ⟨_, pca, hca, hpca, ?_, ?_, ?_⟩
  · exact random_date_between_ge _ _ _ (hr i)
  · intro hle
    rcases lt_or_eq_of_le hle with hlt | heq
    · refine random_date_between_le _ _ _ hle ?_
      have := hub i pca hpca (hcreated ▸ hlt)
      rw [← hcreated] at this
      omega
    · unfold random_date_between
      rw [if_pos (le_of_eq heq.symm)]
      omega
  · intro hge
    unfold random_date_between
    rw [if_pos hge]

/-- C9 witness: the concrete completed subtask of `exParentDone`
completes at 39600, between its creation 36000 and the parent's
completion 39600. -/
theorem gen_subtasks_for_completion_bound_witness :
    ∃ c pca, exSubtask.completed_at = some c ∧
      exParentDone.completed_at = some pca ∧
      exSubtask.created_at ≤ c ∧
      (exSubtask.created_at ≤ pca → c ≤ pca) ∧
      (pca ≤ exSubtask.created_at → c = exSubtask.created_at) :=
  gen_subtasks_for_completion_bound exParentDone 999999 exSubDraws
    (fun _ => "sub0") (fun _ => by norm_num [exSubDraws])
    (by
      intro i pca hpca _
      simp only [exParentDone, Option.some.injEq] at hpca
      subst hpca
      exact (by norm_num : (3600 : Int) ≤ 39600 - 36000))
    exSubtask (by decide) (by decide) (by decide)

/-- C10: every subtask's creation time lies in the closed two-day
window after its parent's creation, and the window allows creation
after the parent's completion — witnessed by the concrete late subtask
of `exParentDone`. -/
theorem generate_subtasks_created_in_window (tasks : List Task) (e : Int)
    (sel : Nat → Bool) (ss : Nat → SubStream)
    (uuid : Nat → Nat → String)
    (h : ∀ j i, 0 ≤ (ss j).rCreated i ∧
      (ss j).rCreated i ≤ 2 * secsPerDay) :
    (∀ x ∈ generate_subtasks tasks e sel ss uuid,
      ∃ t ∈ tasks, x.parent_task_id = some t.id ∧
        t.created_at ≤ x.created_at ∧
        x.created_at ≤ t.created_at + 2 * secsPerDay) ∧
    ∃ y ∈ generate_subtasks [exParentDone] 999999 (fun _ => true)
        (fun _ => exSubDrawsLate) (fun _ _ => "sub1"),
      ∃ pca, exParentDone.completed_at = some pca ∧
        pca < y.created_at := by
  constructor
  · intro x hx
    obtain ⟨j, parent, hpt, _, hxin⟩ := mem_generate_subtasks hx
    obtain ⟨i, _, rfl⟩ := mem_gen_subtasks_for hxin
    obtain ⟨hpid, _, hcreated, _⟩ :=
      subtask_body_spec parent e (ss j) (uuid j) i
    refine ⟨parent, hpt, hpid, ?_, ?_⟩
    · rw [hcreated]
      exact random_date_between_ge _ _ _ (h j i).1
    · rw [hcreated]
      refine random_date_between_le _ _ _ ?_ ?_
      · have : (0 : Int) < secsPerDay := by norm_num [secsPerDay]
        omega
      · have := (h j i).2
        omega
  · exact ⟨exSubtaskLate, by decide, 39600, by decide, by decide⟩

/-- C10 witness: concrete instantiation of the window property for the
late subtask of `exParentDone`. -/
theorem generate_subtasks_created_in_window_witness :
    ∃ t ∈ [exParentDone], exSubtaskLate.parent_task_id = some t.id ∧
      t.created_at ≤ exSubtaskLate.created_at ∧
      exSubtaskLate.created_at ≤ t.created_at + 2 * secsPerDay :=
  (generate_subtasks_created_in_window [exParentDone] 999999
      (fun _ => true) (fun _ => exSubDrawsLate) (fun _ _ => "sub1")
      (fun _ _ => by norm_num [exSubDrawsLate, secsPerDay])).1
    exSubtaskLate (by decide)

/-- C8 counterexample: `random_business_date` does NOT stay within
`[start, end]`.  With `start = end = 259200` (midnight) the uniform
draw returns 259200; the weekday loop exits at its first condition draw
(`random.random() ≥ 0.85`, outcome `false`); the business-hours
adjustment fires (`random.random() < 0.80`) with hour draw 17 and
minute draw 0, moving the result to 17:00 of the same day — 61200
seconds past `end`. -/
theorem random_business_date_escapes_range :
    random_business_date 259200 259200
        ⟨0, fun _ => false, fun _ => 0, true, 17, 0⟩ = 320400 ∧
    (259200 : Int) < 320400 := by
  constructor
  · rfl
  · norm_num

/-- C8 (amended): the draw `pre` before the business-hours adjustment
always lies in `[start, end]` (the weekday loop is bounded — 10
resampling attempts of structurally bounded fuel — and each resample is
a `between` draw), and the final result is `pre` itself when the 80%
adjustment does not fire and keeps `pre`'s calendar day — but not
necessarily `pre`'s range — when it does. -/
theorem random_business_date_spec (start «end» : Int) (d : BizDraws)
    (hs : start ≤ «end») (h0 : 0 ≤ d.rInit ∧ d.rInit ≤ «end» - start)
    (hr : ∀ i, 0 ≤ d.rRetry i ∧ d.rRetry i ≤ «end» - start)
    (hh : 9 ≤ d.hour ∧ d.hour ≤ 17) (hm : 0 ≤ d.minute ∧ d.minute ≤ 59) :
    start ≤ bizRetry start «end» d.cont d.rRetry 10 0
        (random_date_between start «end» d.rInit) ∧
    bizRetry start «end» d.cont d.rRetry 10 0
        (random_date_between start «end» d.rInit) ≤ «end» ∧
    (d.adjust = false → random_business_date start «end» d
      = bizRetry start «end» d.cont d.rRetry 10 0
          (random_date_between start «end» d.rInit)) ∧
    dateOf (random_business_date start «end» d)
      = dateOf (bizRetry start «end» d.cont d.rRetry 10 0
          (random_date_between start «end» d.rInit)) := by
  obtain ⟨hb1, hb2⟩ := bizRetry_bounds start «end» d.cont d.rRetry hs hr
    10 0 (random_date_between start «end» d.rInit)
    (random_date_between_ge _ _ _ h0.1)
    (random_date_between_le _ _ _ hs h0.2)
  refine ⟨hb1, hb2, ?_, ?_⟩
  · intro ha
    simp [random_business_date, ha]
  · by_cases ha : d.adjust
    · simp only [random_business_date, ha, if_true]
      exact dateOf_replaceHourMinute _ _ _ (by omega) (by omega)
        hm.1 hm.2
    · simp [random_business_date, ha]

/-- C8 witness: concrete instantiation on `[0, 86400]` with the
adjustment draw off. -/
theorem random_business_date_spec_witness :
    0 ≤ bizRetry 0 86400 (fun _ => true) (fun _ => 0) 10 0
        (random_date_between 0 86400 100) ∧
    bizRetry 0 86400 (fun _ => true) (fun _ => 0) 10 0
        (random_date_between 0 86400 100) ≤ 86400 ∧
    ((false : Bool) = false →
      random_business_date 0 86400
          ⟨100, fun _ => true, fun _ => 0, false, 9, 30⟩
        = bizRetry 0 86400 (fun _ => true) (fun _ => 0) 10 0
            (random_date_between 0 86400 100)) ∧
    dateOf (random_business_date 0 86400
        ⟨100, fun _ => true, fun _ => 0, false, 9, 30⟩)
      = dateOf (bizRetry 0 86400 (fun _ => true) (fun _ => 0) 10 0
          (random_date_between 0 86400 100)) :=
  random_business_date_spec 0 86400
    ⟨100, fun _ => true, fun _ => 0, false, 9, 30⟩ (by norm_num)
    ⟨by norm_num, by norm_num⟩ (fun _ => ⟨le_refl 0, by norm_num⟩)
    ⟨by norm_num, by norm_num⟩ ⟨by norm_num, by norm_num⟩

/-- C5 counterexample: a team of the input list can end the stage with
no membership at all — and then the repair pass skips it (`if not
has_lead and team_mems:`), so it has no lead.  One engineering user and
two engineering teams: `distribute_among(1, 2, 0)` gives
`[1, 0]` (the single unit drawn into bucket 0), team B receives no
member in step 1, step 2 samples `k = min(1, int(1*0.2)) = 0` users,
and step 3 leaves team B untouched: the output has no membership (and
hence no lead) for team B, which is in the input team list. -/
theorem memberless_team_has_no_lead :
    generate_team_memberships [exTeamA, exTeamB] [exUser] 8 20 exTMDraws
      = some [exMembership] ∧
    exTeamB ∈ [exTeamA, exTeamB] ∧
    (generate_team_memberships [exTeamA, exTeamB] [exUser] 8 20
        exTMDraws).map
      (fun l => l.countP (fun m => m.team_id == "teamB")) = some 0 := by
  refine ⟨by decide, by decide, by decide⟩

/-- C5 (amended): after `generate_team_memberships` (whose last step is
the repair pass), every team of the input list that has AT LEAST ONE
membership record also has a membership with role `lead`; a team that
ends the stage with no memberships (`memberless_team_has_no_lead`) gets
none. -/
theorem generate_team_memberships_lead_repair (teams : List Team)
    (users : List User) (min_team_size max_team_size : Int)
    (d : TMDraws) (mems : List Membership)
    (h : generate_team_memberships teams users min_team_size
        max_team_size d = some mems) :
    ∀ t ∈ teams, (∃ m ∈ mems, m.team_id = t.id) →
      ∃ m ∈ mems, m.team_id = t.id ∧ m.role = "lead" := by
  intro t ht hm
  cases h1 : tm_step1 teams users min_team_size d with
  | none =>
    rw [generate_team_memberships, h1] at h
    cases h
  | some st =>
    rw [generate_team_memberships, h1] at h
    have h2 : repair_leads teams users (tm_step2 teams d st).mems = mems :=
      Option.some.inj h
    subst h2
    exact repair_leads_lead users teams _ t ht hm

/-- C5 witness: on the two-team fixture, team A has a membership and
indeed has a lead. -/
theorem generate_team_memberships_lead_repair_witness :
    ∃ m ∈ [exMembership], m.team_id = exTeamA.id ∧ m.role = "lead" :=
  generate_team_memberships_lead_repair [exTeamA, exTeamB] [exUser] 8 20
    exTMDraws _ (by decide) exTeamA (by decide) (by decide)

end AsanaSim
